import Mathlib

/-!
# Verification of the BOM pricing pipeline (`helper_scripts/bom_pricer.py`)

Shallow embedding of the enrichment pipeline: the candidate selector
(`filter_results`), the per-row resolver (`get_part_price`), the batch loop
(`process_bom`), and the two catalog-client operations
(`MouserAPI.search_by_keyword`, `MouserAPI.search_by_part_number`).

Modelling conventions:
* Python strings are Lean `String`s; the handful of Python string operations
  used by the script (`strip`, `lower`, `split(',')`, `startswith`, substring
  membership, `int(...)`) are re-implemented structurally over `List Char`
  so that concrete runs reduce inside the kernel.
* Python floats holding catalog prices are idealised as `ℚ`; a price value
  of `float('inf')` is represented by `none` in an `Option ℚ` ("extended
  price key").  Parsing a price out of the JSON payload is assumed done by
  the transport, so a price field carries `Option ℚ` (`none` = key absent).
* JSON dictionaries are structures; a key that the script reads with
  `dict.get(k, default)` and that may be absent is an `Option` field.
* Python exceptions escaping a function are modelled by `Except String`,
  the error string naming the exception.
* The HTTP layer is a parameter: a transport function from the request the
  script builds to an abstract outcome (`HttpOutcome`).
-/

namespace BomPricer

/-- Decidable equality on `Except`, so that concrete runs of the fallible
functions below can be checked by `decide`. -/
instance {ε α : Type} [DecidableEq ε] [DecidableEq α] : DecidableEq (Except ε α) := fun x y =>
  match x, y with
  | .error e, .error e' =>
    if h : e = e' then isTrue (h ▸ rfl) else isFalse (fun hc => h (by cases hc; rfl))
  | .error _, .ok _ => isFalse (fun hc => Except.noConfusion hc)
  | .ok _, .error _ => isFalse (fun hc => Except.noConfusion hc)
  | .ok a, .ok b =>
    if h : a = b then isTrue (h ▸ rfl) else isFalse (fun hc => h (by cases hc; rfl))

/-! ## Structural re-implementations of the Python string primitives -/

/-- `listStartsWith l p` : does `l` start with `p`?  (Python `str.startswith`
on the underlying character lists.) -/
def listStartsWith : List Char → List Char → Bool
  | _, [] => true
  | [], _ :: _ => false
  | c :: cs, d :: ds => (c = d) && listStartsWith cs ds

/-- Substring membership on character lists (Python's `needle in hay`). -/
def listContainsSub : List Char → List Char → Bool
  | [], needle => needle.isEmpty
  | c :: cs, needle => listStartsWith (c :: cs) needle || listContainsSub cs needle

/-- Python `pre in s` (substring containment). -/
def pyContains (s sub : String) : Bool :=
  listContainsSub s.data sub.data

/-- Python `s.startswith(p)`. -/
def pyStartsWith (s p : String) : Bool :=
  listStartsWith s.data p.data

/-- Python `s.lower()` (ASCII case folding, as used on packaging strings). -/
def pyLower (s : String) : String :=
  ⟨s.data.map Char.toLower⟩

/-- Python `s.strip()`: remove leading and trailing whitespace. -/
def pyStrip (s : String) : String :=
  ⟨((s.data.dropWhile Char.isWhitespace).reverse.dropWhile Char.isWhitespace).reverse⟩

/-- Helper for `pySplitComma`: split a character list at commas, `acc` being
the (reversed) current token. -/
def splitCommaAux : List Char → List Char → List (List Char)
  | [], acc => [acc.reverse]
  | c :: cs, acc => if c = ',' then acc.reverse :: splitCommaAux cs [] else splitCommaAux cs (c :: acc)

/-- Python `s.split(',')`.  In particular `"".split(',') = [""]`. -/
def pySplitComma (s : String) : List String :=
  (splitCommaAux s.data []).map (fun l => ⟨l⟩)

/-- Python `int(s)`: optional surrounding whitespace, optional sign, decimal
digits; anything else raises `ValueError`.  (Underscore separators and
non-ASCII digits, which CPython also accepts, are outside the model.) -/
def pyInt (s : String) : Except String Int :=
  let t := pyStrip s
  let core := if pyStartsWith t "-" || pyStartsWith t "+" then t.data.drop 1 else t.data
  let sign : Int := if pyStartsWith t "-" then -1 else 1
  if core.isEmpty || !core.all Char.isDigit then
    .error ("ValueError: invalid literal for int() with base 10: " ++ s)
  else
    .ok (sign * (core.foldl (fun n c => 10 * n + (c.toNat - 48)) 0 : Nat))

/-! ## Data model: catalog hits and search results

A `CatalogHit` is one entry of `SearchResults.Parts` in the Mouser payload,
restricted to the keys the script reads (`Packaging`, `PriceBreaks`,
`MouserPartNumber`).  `PriceBreaks = none` models a part dictionary without
the key (the script's `part.get("PriceBreaks", default)` then takes the
default); `PriceBreaks = some l` models the key being present with list `l`.
A price break's `Price = none` models a break dictionary without a `Price`
key. -/

structure PriceBreak where
  Price : Option ℚ
  deriving DecidableEq

structure CatalogHit where
  Packaging : String
  PriceBreaks : Option (List PriceBreak)
  MouserPartNumber : String
  deriving DecidableEq

/-- The dictionary returned by a successful catalog query, restricted to the
keys the script reads.  `SearchResults = none` models both an absent
`SearchResults` key and a falsy (empty) one — the script treats the two
identically (`if result and result.get("SearchResults")`).
`SearchResults = some parts` carries the `Parts` list (an absent `Parts` key
is the empty list, matching `.get("Parts", [])`). -/
structure CatalogResult where
  Errors : List String
  SearchResults : Option (List CatalogHit)
  deriving DecidableEq

/-! ## Candidate selector: `filter_results` (bom_pricer.py lines 104–122) -/

/-- Line 112–113: `packaging = result.get("Packaging", "").lower()` and the
cut-tape / tray membership test. -/
def isCutTapeOrTray (x : CatalogHit) : Bool :=
  pyContains (pyLower x.Packaging) "cut tape" || pyContains (pyLower x.Packaging) "tray"

/-- Lines 110–118: the partition the minimum is taken over — the hits whose
packaging mentions cut tape or tray, or all hits when that filter is empty. -/
def chosenPartition (results : List CatalogHit) : List CatalogHit :=
  let filtered := results.filter isCutTapeOrTray
  if filtered = [] then results else filtered

/-- Line 121's sort key
`float(x.get("PriceBreaks", [{}])[0].get("Price", float('inf')))`:
* `PriceBreaks` absent → the default `[{}]` is used, `[{}][0] = {}` has no
  `Price` key, so the key is `float('inf')` (our `none`);
* `PriceBreaks` present but `[]` → `[][0]` raises `IndexError`;
* otherwise the first break's `Price`, `none` (absent) again meaning `inf`. -/
def priceKey (x : CatalogHit) : Except String (Option ℚ) :=
  match x.PriceBreaks with
  | none => .ok none
  | some [] => .error "IndexError: list index out of range"
  | some (pb :: _) => .ok pb.Price

/-- Strict order on price keys, `none` being `+∞`: a finite price is below
`+∞`, and `inf < inf` is false in Python, matching `epLt none none = false`
here. -/
def epLt : Option ℚ → Option ℚ → Bool
  | none, _ => false
  | some _, none => true
  | some p, some q => decide (p < q)

/-- The loop of Python's `min(filtered, key=...)` after the first element:
keep the current best, replace it only on a strictly smaller key (so the
first hit at the minimum wins), raising as soon as a key raises. -/
def pyMinGo (key : CatalogHit → Except String (Option ℚ)) (best : CatalogHit)
    (kbest : Option ℚ) : List CatalogHit → Except String CatalogHit
  | [] => .ok best
  | y :: ys =>
    match key y with
    | .error e => .error e
    | .ok ky => if epLt ky kbest then pyMinGo key y ky ys else pyMinGo key best kbest ys

/-- Python `min(l, key=key)`: `ValueError` on an empty sequence, otherwise a
stable minimum, propagating any exception the key raises. -/
def pyMinBy (key : CatalogHit → Except String (Option ℚ)) :
    List CatalogHit → Except String CatalogHit
  | [] => .error "ValueError: min() arg is an empty sequence"
  | x :: xs =>
    match key x with
    | .error e => .error e
    | .ok kx => pyMinGo key x kx xs

/-- `filter_results` (lines 104–122): `None` on an empty list, otherwise the
cheapest hit of the chosen partition (cut-tape/tray preferred); the
`IndexError` of line 121 on a present-but-empty `PriceBreaks` list escapes as
`.error`. -/
def filter_results (results : List CatalogHit) : Except String (Option CatalogHit) :=
  if results = [] then .ok none
  else (pyMinBy priceKey (chosenPartition results)).map some

/-! ## Catalog client: `MouserAPI` (bom_pricer.py lines 34–102)

The two operations are modelled over an abstract transport.  The request
records exactly the script-controlled query data; the transport's outcome
distinguishes the failure points of the Python code:
* `transportError` — `requests.get` raised a `RequestException`
  (network failure);
* `httpError` — `response.raise_for_status()` raised (non-2xx response;
  `HTTPError` is a `RequestException`, so it is caught by the same handler);
* `malformedBody` — `response.json()` raised on an unparsable payload
  (`requests.exceptions.JSONDecodeError`, likewise a `RequestException`);
* `ok body` — a parsed response dictionary. -/

inductive HttpOutcome where
  | transportError (msg : String)
  | httpError (code : Nat)
  | malformedBody
  | ok (body : CatalogResult)
  deriving DecidableEq

/-- The keyword-search request of lines 75–83: endpoint plus the two query
parameters `keyword` and `records`. -/
structure KeywordRequest where
  url : String
  keyword : String
  records : Nat
  deriving DecidableEq

/-- Lines 75 and 80–83: the request `search_by_keyword` builds — note the
fixed `records = 50`. -/
def keywordRequest (keyword : String) : KeywordRequest :=
  { url := "https://api.mouser.com/api/v2.0/search/keyword"
    keyword := keyword
    records := 50 }

/-- `MouserAPI.search_by_keyword` (lines 68–102): `None` for a blank query
(no request issued), `None` on every transport-level failure and whenever
the payload carries a non-empty `Errors` list, the parsed body otherwise. -/
def search_by_keyword (transport : KeywordRequest → HttpOutcome) (keyword : String) :
    Option CatalogResult :=
  if pyStrip keyword = "" then none
  else
    match transport (keywordRequest keyword) with
    | .transportError _ => none
    | .httpError _ => none
    | .malformedBody => none
    | .ok data => if data.Errors = [] then some data else none

/-- The part-number request of lines 43–51: endpoint plus the parameters
`partNumber` and `searchOptions = "exact"`. -/
structure PartNumberRequest where
  url : String
  partNumber : String
  searchOptions : String
  deriving DecidableEq

/-- Lines 43 and 48–51. -/
def partNumberRequest (pn : String) : PartNumberRequest :=
  { url := "https://api.mouser.com/api/v2/search/partnumber"
    partNumber := pn
    searchOptions := "exact" }

/-- `MouserAPI.search_by_part_number` (lines 37–66), same failure semantics
as `search_by_keyword`. -/
def search_by_part_number (transport : PartNumberRequest → HttpOutcome) (pn : String) :
    Option CatalogResult :=
  if pyStrip pn = "" then none
  else
    match transport (partNumberRequest pn) with
    | .transportError _ => none
    | .httpError _ => none
    | .malformedBody => none
    | .ok data => if data.Errors = [] then some data else none

/-! ## Resolver: `get_part_price` (bom_pricer.py lines 124–162) -/

/-- The two catalog operations as the resolver sees them (the resolver never
builds requests itself; it calls the `MouserAPI` wrappers). -/
structure MouserClient where
  byPartNumber : String → Option CatalogResult
  byKeyword : String → Option CatalogResult

/-- Lines 138–143: the connector-descriptor rewrite.  A descriptor starting
with `"Conn_"` becomes the canonical search phrase; everything else passes
through unchanged. -/
def normalize_value (value : String) : String :=
  if pyStartsWith value "Conn_" then "2.54mm pitch male header" else value

/-- `get_part_price` (lines 124–162).  Returns the tuple
`(unit_price, mouser_part_number, packaging, status)`; a `.error` is a
Python exception escaping the call (the `IndexError` of `filter_results`).
Line 156's `float(price_breaks[0].get("Price", 0))` defaults an absent
`Price` key to `0` — unlike the selector's `inf` default. -/
def get_part_price (api : MouserClient) (part_number value : String) :
    Except String (Option ℚ × String × String × String) :=
  if pyStrip value = "" then .ok (none, "", "", "No Value to search")
  else
    let search_value := normalize_value value
    match api.byKeyword search_value with
    | some result =>
      match result.SearchResults with
      | some parts =>
        if parts = [] then .ok (none, "", "", "Not found")
        else
          match filter_results parts with
          | .error e => .error e
          | .ok none => .ok (none, "", "", "Not found")
          | .ok (some best_part) =>
            match best_part.PriceBreaks.getD [] with
            | [] => .ok (none, "", "", "Not found")
            | pb :: _ =>
              .ok (some (pb.Price.getD 0), best_part.MouserPartNumber,
                   best_part.Packaging, "Found by Value keyword")
      | none => .ok (none, "", "", "Not found")
    | none => .ok (none, "", "", "Not found")

/-! ## Batch loop: `process_bom` (bom_pricer.py lines 164–232)

One input row is modelled by the four columns the loop reads; a field is
`none` when the CSV has no such column for this row.  (The file-level CSV
encode/decode, the progress printing and the rate-limit sleep carry no data
and are outside the model.) -/

structure Row where
  Reference : Option String
  Qty : Option String
  MPN : Option String
  Value : Option String
  deriving DecidableEq

/-- A processed row: the original row plus the five added columns, always
all present (lines 214–218 assign each unconditionally). -/
structure EnrichedRow where
  orig : Row
  Unit_Price : String
  Extended_Price : String
  Mouser_Part_Number : String
  Packaging : String
  Status : String
  deriving DecidableEq

/-- Lines 190–195: quantity from the `Qty` column when present and
non-blank (`int(...)` may raise `ValueError`), otherwise the count of
non-empty comma-separated tokens of the `Reference` column. -/
def refCount (ref : String) : Nat :=
  ((pySplitComma ref).filter (fun r => !(pyStrip r = ""))).length

def rowQuantity (row : Row) : Except String Int :=
  match row.Qty with
  | some q => if !(pyStrip q = "") then pyInt q else .ok (refCount (row.Reference.getD ""))
  | none => .ok (refCount (row.Reference.getD ""))

/-- Lines 197–203: the identifier — the `MPN` column when the schema has
one, otherwise the `Value` column. -/
def rowMpn (row : Row) : String :=
  match row.MPN with
  | some m => pyStrip m
  | none => pyStrip (row.Value.getD "")

/-- `f"${v:.2f}"` on the idealised rational value: two fractional digits,
ties rounded to even (Python's float formatting rounds the exact binary
value half-to-even; on prices exactly representable at two decimals the two
agree).  Computed from the reduced numerator/denominator so that concrete
values evaluate inside the kernel. -/
def fmt2 (q : ℚ) : String :=
  let n : Int := 100 * q.num
  let d : Int := (q.den : Int)
  let f : Int := Int.fdiv n d
  let r2 : Int := 2 * (n - f * d)
  let c : Int := if r2 < d then f else if d < r2 then f + 1 else if f % 2 = 0 then f else f + 1
  let m : Nat := c.natAbs
  (if c < 0 then "-" else "") ++ Nat.repr (m / 100) ++ "." ++
    (if m % 100 < 10 then "0" else "") ++ Nat.repr (m % 100)

/-- Lines 186–220, the body of the per-row loop.  Python truthiness makes a
resolved price of `0.0` and an extended price of `0.0` fall back to the
`"N/A"` marker (`f"..." if unit_price else "N/A"`). -/
def processRow (api : MouserClient) (row : Row) : Except String EnrichedRow :=
  match rowQuantity row with
  | .error e => .error e
  | .ok quantity =>
    match get_part_price api (rowMpn row) (pyStrip (row.Value.getD "")) with
    | .error e => .error e
    | .ok (unit_price, mouser_pn, packaging, status) =>
      let extended_price : Option ℚ :=
        match unit_price with
        | some p => if p = 0 then none else some (p * (quantity : ℚ))
        | none => none
      let unit_str :=
        match unit_price with
        | some p => if p = 0 then "N/A" else "$" ++ fmt2 p
        | none => "N/A"
      let ext_str :=
        match extended_price with
        | some e => if e = 0 then "N/A" else "$" ++ fmt2 e
        | none => "N/A"
      .ok { orig := row
            Unit_Price := unit_str
            Extended_Price := ext_str
            Mouser_Part_Number := mouser_pn
            Packaging := packaging
            Status := status }

/-- `process_bom` restricted to its data path: rows in, enriched rows out,
in order; the first uncaught per-row exception aborts the whole batch (the
loop of lines 184–224 has no handler, and `main` turns the exception into a
non-zero exit with no output file written). -/
def process_bom (api : MouserClient) : List Row → Except String (List EnrichedRow)
  | [] => .ok []
  | row :: rows =>
    match processRow api row with
    | .error e => .error e
    | .ok er =>
      match process_bom api rows with
      | .error e => .error e
      | .ok ers => .ok (er :: ers)

/-! ## Order lemmas for the price key -/

/-- The key `filter_results` would compute for a hit, when it does not raise:
first break's price, `none` (= `+∞`) when the `PriceBreaks` key is absent or
the first break has no `Price` key. -/
def keyOk (x : CatalogHit) : Option ℚ :=
  match x.PriceBreaks with
  | some (pb :: _) => pb.Price
  | _ => none

lemma priceKey_eq_keyOk {x : CatalogHit} (hx : x.PriceBreaks ≠ some []) :
    priceKey x = .ok (keyOk x) := by
  unfold priceKey keyOk
  match h : x.PriceBreaks with
  | none => rfl
  | some [] => exact absurd h hx
  | some (pb :: l) => rfl

lemma epLt_irrefl (a : Option ℚ) : epLt a a = false := by
  cases a <;> simp [epLt]

lemma epLt_asymm {a b : Option ℚ} (h : epLt a b = true) : epLt b a = false := by
  cases a <;> cases b <;> simp_all [epLt]
  exact le_of_lt h

/-- `a ≤ b` and `b < c` give `a < c` (with `¬ · < ·` as `≤`). -/
lemma epLt_of_not_lt_of_lt {a b c : Option ℚ} (h1 : epLt b a = false)
    (h2 : epLt b c = true) : epLt a c = true := by
  cases a <;> cases b <;> cases c <;> simp_all [epLt]
  exact lt_of_le_of_lt h1 h2

/-- `a ≤ b` and `b ≤ c` give `a ≤ c` (with `¬ · < ·` as `≤`). -/
lemma not_epLt_of_not_lt_of_not_lt {a b c : Option ℚ} (h1 : epLt b a = false)
    (h2 : epLt c b = false) : epLt c a = false := by
  cases a <;> cases b <;> cases c <;> simp_all [epLt]
  exact le_trans h1 h2

/-- `a < b` and `b ≤ c` give `a < c` (with `¬ · < ·` as `≤`). -/
lemma epLt_of_lt_of_not_lt {a b c : Option ℚ} (h1 : epLt a b = true)
    (h2 : epLt c b = false) : epLt a c = true := by
  cases a <;> cases b <;> cases c <;> simp_all [epLt]
  exact lt_of_lt_of_le h1 h2

/-! ## The stable-minimum specification of `pyMinGo` / `pyMinBy` -/

/-- Running the `min` loop over `l` with current best `best`: it succeeds
(when every key is readable), the winner is an element of `best :: l` whose
key no element beats, and every element strictly before the winner has a
strictly greater key — so the first element at the minimum wins. -/
lemma pyMinGo_spec (l : List CatalogHit) :
    ∀ best : CatalogHit, (∀ y ∈ l, priceKey y = .ok (keyOk y)) →
    ∃ pre w suf,
      pyMinGo priceKey best (keyOk best) l = .ok w ∧
      best :: l = pre ++ w :: suf ∧
      (∀ y ∈ best :: l, epLt (keyOk y) (keyOk w) = false) ∧
      (∀ z ∈ pre, epLt (keyOk w) (keyOk z) = true) := by
  induction l with
  | nil =>
    intro best _
    exact ⟨[], best, [], rfl, rfl, by simp [epLt_irrefl], by simp⟩
  | cons y ys ih =>
    intro best hk
    have hky : priceKey y = .ok (keyOk y) := hk y (by simp)
    have hk' : ∀ z ∈ ys, priceKey z = .ok (keyOk z) := fun z hz => hk z (by simp [hz])
    by_cases hlt : epLt (keyOk y) (keyOk best) = true
    · obtain ⟨pre, w, suf, h1, h2, h3, h4⟩ := ih y hk'
      have hyw : epLt (keyOk y) (keyOk w) = false := h3 y (by simp)
      have hwbest : epLt (keyOk w) (keyOk best) = true := epLt_of_not_lt_of_lt hyw hlt
      refine ⟨best :: pre, w, suf, ?_, ?_, ?_, ?_⟩
      · simp only [pyMinGo, hky, hlt, if_true]
        exact h1
      · simpa using congrArg (best :: ·) h2
      · intro z hz
        rcases List.mem_cons.mp hz with hz | hz
        · subst hz; exact epLt_asymm hwbest
        · exact h3 z hz
      · intro z hz
        rcases List.mem_cons.mp hz with hz | hz
        · subst hz; exact hwbest
        · exact h4 z hz
    · have hlt' : epLt (keyOk y) (keyOk best) = false := by
        cases h : epLt (keyOk y) (keyOk best) with
        | true => exact absurd h hlt
        | false => rfl
      obtain ⟨pre, w, suf, h1, h2, h3, h4⟩ := ih best hk'
      have hbw : epLt (keyOk best) (keyOk w) = false := h3 best (by simp)
      have hyw : epLt (keyOk y) (keyOk w) = false :=
        not_epLt_of_not_lt_of_not_lt hbw hlt'
      have hmin : ∀ z ∈ best :: y :: ys, epLt (keyOk z) (keyOk w) = false := by
        intro z hz
        rcases List.mem_cons.mp hz with hz | hz
        · subst hz; exact hbw
        · rcases List.mem_cons.mp hz with hz | hz
          · subst hz; exact hyw
          · exact h3 z (by simp [hz])
      have hrun : pyMinGo priceKey best (keyOk best) (y :: ys) = .ok w := by
        simp only [pyMinGo, hky, hlt', if_false]
        exact h1
      cases pre with
      | nil =>
        have hw : best = w := by simpa using congrArg (fun t => t.head?) h2
        refine ⟨[], w, y :: ys, hrun, by simp [← hw], hmin, by simp⟩
      | cons p₀ pre₁ =>
        rw [List.cons_append] at h2
        injection h2 with hp₀ hys
        have hwbest : epLt (keyOk w) (keyOk best) = true := by
          rw [hp₀]; exact h4 p₀ (by simp)
        have hwy : epLt (keyOk w) (keyOk y) = true := epLt_of_lt_of_not_lt hwbest hlt'
        refine ⟨best :: y :: pre₁, w, suf, hrun, ?_, hmin, ?_⟩
        · simp [hys]
        · intro z hz
          rcases List.mem_cons.mp hz with hz | hz
          · subst hz; exact hwbest
          · rcases List.mem_cons.mp hz with hz | hz
            · subst hz; exact hwy
            · exact h4 z (by simp [hz])

/-- `filter_results` on a non-empty list, when every hit of the chosen
partition has a readable key: it returns the first cheapest hit of the
chosen partition. -/
lemma filter_results_spec (results : List CatalogHit) (hne : results ≠ [])
    (hok : ∀ x ∈ chosenPartition results, x.PriceBreaks ≠ some []) :
    ∃ pre w suf,
      filter_results results = .ok (some w) ∧
      chosenPartition results = pre ++ w :: suf ∧
      (∀ y ∈ chosenPartition results, epLt (keyOk y) (keyOk w) = false) ∧
      (∀ z ∈ pre, epLt (keyOk w) (keyOk z) = true) := by
  have hpne : chosenPartition results ≠ [] := by
    show (if results.filter isCutTapeOrTray = [] then results
          else results.filter isCutTapeOrTray) ≠ []
    by_cases h : results.filter isCutTapeOrTray = []
    · rw [if_pos h]; exact hne
    · rw [if_neg h]; exact h
  obtain ⟨x, xs, hp⟩ : ∃ x xs, chosenPartition results = x :: xs := by
    cases h : chosenPartition results with
    | nil => exact absurd h hpne
    | cons a l => exact ⟨a, l, rfl⟩
  have hkx : priceKey x = .ok (keyOk x) :=
    priceKey_eq_keyOk (hok x (by rw [hp]; simp))
  have hkxs : ∀ y ∈ xs, priceKey y = .ok (keyOk y) := fun y hy =>
    priceKey_eq_keyOk (hok y (by rw [hp]; simp [hy]))
  obtain ⟨pre, w, suf, h1, h2, h3, h4⟩ := pyMinGo_spec xs x hkxs
  refine ⟨pre, w, suf, ?_, by rw [hp]; exact h2, by rw [hp]; exact h3, h4⟩
  unfold filter_results
  rw [if_neg hne, hp]
  simp only [pyMinBy, hkx, h1, Except.map]

/-! ## Characterizing the resolver -/

/-- The candidate the resolver's success path selects for a descriptor:
keyword search on the normalized descriptor, then `filter_results` over the
parts list.  `none` when the search failed, found nothing usable, or the
selection raised. -/
def selectedPart (api : MouserClient) (value : String) : Option CatalogHit :=
  match api.byKeyword (normalize_value value) with
  | some result =>
    match result.SearchResults with
    | some parts =>
      if parts = [] then none
      else
        match filter_results parts with
        | .ok (some best) => some best
        | _ => none
    | none => none
  | none => none

/-- The resolver's "found" condition: non-blank descriptor and a selected
candidate carrying at least one price breakpoint. -/
def foundCase (api : MouserClient) (value : String) : Bool :=
  !decide (pyStrip value = "") &&
    (match selectedPart api value with
     | some best => !decide (best.PriceBreaks.getD [] = [])
     | none => false)

/-- Exhaustive case analysis of one resolver call, phrased through
`selectedPart`. -/
lemma get_part_price_characterize (api : MouserClient) (pn v : String) :
    (pyStrip v = "" ∧ get_part_price api pn v = .ok (none, "", "", "No Value to search"))
  ∨ (pyStrip v ≠ "" ∧ (∃ e, get_part_price api pn v = .error e) ∧ selectedPart api v = none)
  ∨ (pyStrip v ≠ "" ∧ selectedPart api v = none ∧
      get_part_price api pn v = .ok (none, "", "", "Not found"))
  ∨ (pyStrip v ≠ "" ∧ ∃ best, selectedPart api v = some best ∧
      ((best.PriceBreaks.getD [] = [] ∧
        get_part_price api pn v = .ok (none, "", "", "Not found"))
       ∨ (∃ pb l, best.PriceBreaks = some (pb :: l) ∧
          get_part_price api pn v =
            .ok (some (pb.Price.getD 0), best.MouserPartNumber, best.Packaging,
                 "Found by Value keyword")))) := by
  by_cases hv : pyStrip v = ""
  · exact Or.inl ⟨hv, by simp [get_part_price, hv]⟩
  · cases hk : api.byKeyword (normalize_value v) with
    | none =>
      exact Or.inr (Or.inr (Or.inl ⟨hv, by simp [selectedPart, hk],
        by simp [get_part_price, hv, hk]⟩))
    | some result =>
      cases hs : result.SearchResults with
      | none =>
        exact Or.inr (Or.inr (Or.inl ⟨hv, by simp [selectedPart, hk, hs],
          by simp [get_part_price, hv, hk, hs]⟩))
      | some parts =>
        by_cases hps : parts = []
        · exact Or.inr (Or.inr (Or.inl ⟨hv, by simp [selectedPart, hk, hs, hps],
            by simp [get_part_price, hv, hk, hs, hps]⟩))
        · cases hf : filter_results parts with
          | error e =>
            refine Or.inr (Or.inl ⟨hv, ⟨e, ?_⟩, ?_⟩)
            · simp [get_part_price, hv, hk, hs, hps, hf]
            · simp [selectedPart, hk, hs, hps, hf]
          | ok ob =>
            cases ob with
            | none =>
              exact Or.inr (Or.inr (Or.inl ⟨hv, by simp [selectedPart, hk, hs, hps, hf],
                by simp [get_part_price, hv, hk, hs, hps, hf]⟩))
            | some best =>
              refine Or.inr (Or.inr (Or.inr ⟨hv, best,
                by simp [selectedPart, hk, hs, hps, hf], ?_⟩))
              cases hpb : best.PriceBreaks with
              | none =>
                refine Or.inl ⟨by simp [hpb], ?_⟩
                simp [get_part_price, hv, hk, hs, hps, hf, hpb]
              | some l =>
                cases l with
                | nil =>
                  refine Or.inl ⟨by simp [hpb], ?_⟩
                  simp [get_part_price, hv, hk, hs, hps, hf, hpb]
                | cons pb tl =>
                  refine Or.inr ⟨pb, tl, rfl, ?_⟩
                  simp [get_part_price, hv, hk, hs, hps, hf, hpb]

/-- A blank descriptor short-circuits: the result does not depend on the
catalog client at all (no network call), and all fields are unresolved. -/
lemma get_part_price_blank (api : MouserClient) (pn v : String) (hv : pyStrip v = "") :
    get_part_price api pn v = .ok (none, "", "", "No Value to search") := by
  simp [get_part_price, hv]

/-- Status discipline of a resolver call that returns: which of the three
labels it carries, exactly when, and the unresolved markers outside the
found case. -/
lemma get_part_price_ok_status {api : MouserClient} {pn v : String}
    {up : Option ℚ} {mp pk st : String}
    (h : get_part_price api pn v = .ok (up, mp, pk, st)) :
    (st = "No Value to search" ↔ pyStrip v = "") ∧
    (st = "Found by Value keyword" ↔ foundCase api v = true) ∧
    (st = "Not found" ↔ (pyStrip v ≠ "" ∧ foundCase api v = false)) ∧
    (st ≠ "Found by Value keyword" → up = none ∧ mp = "" ∧ pk = "") ∧
    (st = "No Value to search" ∨ st = "Found by Value keyword" ∨ st = "Not found") := by
  rcases get_part_price_characterize api pn v with
    ⟨hv, heq⟩ | ⟨hv, ⟨e, heq⟩, _⟩ | ⟨hv, hsel, heq⟩ | ⟨hv, best, hsel, hbr⟩
  · rw [heq] at h
    obtain ⟨h1, h2, h3, h4⟩ : none = up ∧ "" = mp ∧ "" = pk ∧ "No Value to search" = st := by
      simpa using h
    subst h1; subst h2; subst h3; subst h4
    refine ⟨by simp [hv], ?_, ?_, by simp, by simp⟩
    · constructor
      · intro hc; exact absurd hc (by decide)
      · intro hc; rw [foundCase] at hc; simp [hv] at hc
    · constructor
      · intro hc; exact absurd hc (by decide)
      · intro hc; exact absurd hv hc.1
  · rw [heq] at h; exact absurd h (by simp)
  · rw [heq] at h
    obtain ⟨h1, h2, h3, h4⟩ : none = up ∧ "" = mp ∧ "" = pk ∧ "Not found" = st := by
      simpa using h
    subst h1; subst h2; subst h3; subst h4
    have hfc : foundCase api v = false := by simp [foundCase, hsel]
    refine ⟨by simp [hv], by simp [hfc], by simp [hv, hfc], by simp, by simp⟩
  · rcases hbr with ⟨hget, heq⟩ | ⟨pb, l, hpb, heq⟩
    · rw [heq] at h
      obtain ⟨h1, h2, h3, h4⟩ : none = up ∧ "" = mp ∧ "" = pk ∧ "Not found" = st := by
        simpa using h
      subst h1; subst h2; subst h3; subst h4
      have hfc : foundCase api v = false := by simp [foundCase, hsel, hget]
      refine ⟨by simp [hv], by simp [hfc], by simp [hv, hfc], by simp, by simp⟩
    · rw [heq] at h
      obtain ⟨h1, h2, h3, h4⟩ :
          some (pb.Price.getD 0) = up ∧ best.MouserPartNumber = mp ∧
          best.Packaging = pk ∧ "Found by Value keyword" = st := by
        simpa using h
      subst h1; subst h2; subst h3; subst h4
      have hfc : foundCase api v = true := by simp [foundCase, hsel, hpb, hv]
      refine ⟨by simp [hv], by simp [hfc], ?_, by simp, by simp⟩
      constructor
      · intro hc; exact absurd hc (by decide)
      · intro hc; rw [hfc] at hc; exact absurd hc.2 (by decide)

/-! ## Row-level lemmas for the batch loop -/

lemma rowQuantity_explicit {row : Row} {q : String} (hq : row.Qty = some q)
    (hne : ¬ pyStrip q = "") : rowQuantity row = pyInt q := by
  simp [rowQuantity, hq, hne]

lemma rowQuantity_no_qty {row : Row} (hq : row.Qty = none) :
    rowQuantity row = .ok (refCount (row.Reference.getD "")) := by
  simp [rowQuantity, hq]

lemma rowQuantity_blank_qty {row : Row} {q : String} (hq : row.Qty = some q)
    (hblank : pyStrip q = "") :
    rowQuantity row = .ok (refCount (row.Reference.getD "")) := by
  simp [rowQuantity, hq, hblank]

/-- A processed row that came back `.ok` keeps its original columns, carries
one of the three status labels, and outside the found case carries exactly
the unresolved markers in the four data fields. -/
lemma processRow_ok_shape {api : MouserClient} {row : Row} {er : EnrichedRow}
    (h : processRow api row = .ok er) :
    er.orig = row ∧
    (er.Status = "No Value to search" ∨ er.Status = "Found by Value keyword" ∨
      er.Status = "Not found") ∧
    (er.Status ≠ "Found by Value keyword" →
      er.Unit_Price = "N/A" ∧ er.Extended_Price = "N/A" ∧
      er.Mouser_Part_Number = "" ∧ er.Packaging = "") := by
  unfold processRow at h
  cases hq : rowQuantity row with
  | error e => rw [hq] at h; exact absurd h (by simp)
  | ok quantity =>
    rw [hq] at h
    cases hg : get_part_price api (rowMpn row) (pyStrip (row.Value.getD "")) with
    | error e => rw [hg] at h; exact absurd h (by simp)
    | ok r =>
      obtain ⟨up, mp, pk, st⟩ := r
      rw [hg] at h
      have her : er = _ := (by simpa using h : _ = er).symm
      obtain ⟨-, -, -, hmark, hmem⟩ := get_part_price_ok_status hg
      subst her
      refine ⟨rfl, hmem, ?_⟩
      intro hnf
      obtain ⟨hup, hmp, hpk⟩ := hmark hnf
      subst hup; subst hmp; subst hpk
      exact ⟨rfl, rfl, rfl, rfl⟩

/-- The status a processed row carries is exactly the status component of
the resolver's answer on that row's identifier and descriptor — the
quantity computation never touches it. -/
lemma processRow_status {api : MouserClient} {row : Row} {er : EnrichedRow}
    (h : processRow api row = .ok er) :
    ∃ up mp pk,
      get_part_price api (rowMpn row) (pyStrip (row.Value.getD "")) = .ok (up, mp, pk, er.Status) := by
  unfold processRow at h
  cases hq : rowQuantity row with
  | error e => rw [hq] at h; exact absurd h (by simp)
  | ok quantity =>
    rw [hq] at h
    cases hg : get_part_price api (rowMpn row) (pyStrip (row.Value.getD "")) with
    | error e => rw [hg] at h; exact absurd h (by simp)
    | ok r =>
      obtain ⟨up, mp, pk, st⟩ := r
      rw [hg] at h
      have her : er = _ := (by simpa using h : _ = er).symm
      subst her
      exact ⟨up, mp, pk, by simpa using hg⟩

/-- A fully successful row: resolved nonzero unit price and nonzero extended
price produce the two formatted currency fields. -/
lemma processRow_found {api : MouserClient} {row : Row} {N : Int} {p : ℚ}
    {mp pk st : String}
    (hqty : rowQuantity row = .ok N)
    (hgp : get_part_price api (rowMpn row) (pyStrip (row.Value.getD "")) = .ok (some p, mp, pk, st))
    (hp : ¬ p = 0) (hpN : ¬ p * (N : ℚ) = 0) :
    processRow api row =
      .ok ⟨row, "$" ++ fmt2 p, "$" ++ fmt2 (p * (N : ℚ)), mp, pk, st⟩ := by
  simp [processRow, hqty, hgp, hp, hpN]

/-- Shape invariant of one output row against its input row: original
columns kept, a status from the fixed vocabulary, and the defined
unresolved markers in the four data fields whenever the row is not a
found row. -/
def enrichedShape (r : Row) (er : EnrichedRow) : Prop :=
  er.orig = r ∧
  (er.Status = "No Value to search" ∨ er.Status = "Found by Value keyword" ∨
    er.Status = "Not found") ∧
  (er.Status ≠ "Found by Value keyword" →
    er.Unit_Price = "N/A" ∧ er.Extended_Price = "N/A" ∧
    er.Mouser_Part_Number = "" ∧ er.Packaging = "")

/-- A batch that completes produces exactly one shaped output row per input
row, in order. -/
lemma process_bom_shape {api : MouserClient} {rows : List Row} {out : List EnrichedRow}
    (h : process_bom api rows = .ok out) :
    out.length = rows.length ∧ List.Forall₂ enrichedShape rows out := by
  induction rows generalizing out with
  | nil =>
    obtain rfl : ([] : List EnrichedRow) = out := by simpa [process_bom] using h
    exact ⟨rfl, List.Forall₂.nil⟩
  | cons r rs ih =>
    unfold process_bom at h
    cases hr : processRow api r with
    | error e => rw [hr] at h; exact absurd h (by simp)
    | ok er =>
      rw [hr] at h
      cases hrs : process_bom api rs with
      | error e => rw [hrs] at h; exact absurd h (by simp)
      | ok ers =>
        rw [hrs] at h
        obtain rfl : er :: ers = out := by simpa using h
        obtain ⟨hlen, hall⟩ := ih hrs
        obtain ⟨ho, hst, hmk⟩ := processRow_ok_shape hr
        exact ⟨by simp [hlen], List.Forall₂.cons ⟨ho, hst, hmk⟩ hall⟩

/-! ## Claims -/

/-- **C1 (counterexample).**  As stated over all non-empty hit sequences the
claim fails: on a single cut-tape hit whose `PriceBreaks` key is present but
empty, the selector raises `IndexError` (line 121 indexes `[][0]`) instead
of choosing a winner from the partition. -/
theorem C1_counterexample :
    filter_results [⟨"Cut Tape", some [], "B1"⟩] = .error "IndexError: list index out of range" ∧
    ∀ w : CatalogHit, filter_results [⟨"Cut Tape", some [], "B1"⟩] ≠ .ok (some w) := by
  refine ⟨by decide, fun w hc => ?_⟩
  rw [(by decide :
    filter_results [⟨"Cut Tape", some [], "B1"⟩] = .error "IndexError: list index out of range")] at hc
  exact Except.noConfusion hc

/-- **C1 (amended).**  For every non-empty sequence of catalog hits in which
no hit of the chosen partition has a present-but-empty price-break list (so
every sort key evaluates), the selector picks its winner from the cut-tape /
tray partition when that partition is non-empty and from the full set
otherwise; the winner's first-breakpoint unit price is minimal in the
chosen partition, and every hit placed before the winner is strictly more
expensive — the first hit at the minimum wins. -/
theorem C1_selector_chooses_stable_minimum (results : List CatalogHit)
    (hne : results ≠ [])
    (hok : ∀ x ∈ chosenPartition results, x.PriceBreaks ≠ some []) :
    ∃ pre w suf,
      filter_results results = .ok (some w) ∧
      chosenPartition results = pre ++ w :: suf ∧
      (∀ y ∈ chosenPartition results, epLt (keyOk y) (keyOk w) = false) ∧
      (∀ z ∈ pre, epLt (keyOk w) (keyOk z) = true) :=
  filter_results_spec results hne hok

/-- **C1 (witness).**  A concrete run: packaging preference dominates raw
price — the \$7 cut-tape hit beats the \$5 tube hit. -/
theorem C1_witness :
    ∃ pre w suf,
      filter_results [⟨"Tube", some [⟨some 5⟩], "A"⟩, ⟨"Cut Tape", some [⟨some 7⟩], "B"⟩] =
        .ok (some w) ∧
      chosenPartition [⟨"Tube", some [⟨some 5⟩], "A"⟩, ⟨"Cut Tape", some [⟨some 7⟩], "B"⟩] =
        pre ++ w :: suf ∧
      (∀ y ∈ chosenPartition [⟨"Tube", some [⟨some 5⟩], "A"⟩, ⟨"Cut Tape", some [⟨some 7⟩], "B"⟩],
        epLt (keyOk y) (keyOk w) = false) ∧
      (∀ z ∈ pre, epLt (keyOk w) (keyOk z) = true) :=
  C1_selector_chooses_stable_minimum _ (by decide) (by decide)

/-- **C2 (code bug, evaluated).**  Failure isolation holds for the
catalog-client failure modes — with a client that returns `None` (e.g. a
transport failure) every row still comes back, degraded to `"Not found"`
(first conjunct).  But it does not hold for all row-resolution failures:
when the keyword search returns a hit whose `PriceBreaks` key is present
and empty, the selector's `IndexError` escapes `get_part_price` and
`process_bom` has no handler, so the whole batch aborts and the second row
is never processed (second conjunct) — contradicting the claim. -/
theorem C2_batch_abort_eval :
    process_bom ⟨fun _ => none, fun _ => none⟩
        [⟨some "R1", none, some "M1", some "RES1"⟩, ⟨some "R2", none, some "M2", some "RES2"⟩] =
      .ok [⟨⟨some "R1", none, some "M1", some "RES1"⟩, "N/A", "N/A", "", "", "Not found"⟩,
           ⟨⟨some "R2", none, some "M2", some "RES2"⟩, "N/A", "N/A", "", "", "Not found"⟩] ∧
    process_bom ⟨fun _ => none, fun _ => some ⟨[], some [⟨"Tube", some [], "X"⟩]⟩⟩
        [⟨some "R1", none, some "M1", some "RES1"⟩, ⟨some "R2", none, some "M2", some "RES2"⟩] =
      .error "IndexError: list index out of range" := by
  constructor <;> decide

/-- **C3 (counterexample).**  Not every resolver call assigns a status
label: on a non-blank descriptor whose search result contains a hit with a
present-but-empty `PriceBreaks` list, the call raises instead of returning,
so no status is assigned. -/
theorem C3_counterexample :
    get_part_price ⟨fun _ => none, fun _ => some ⟨[], some [⟨"Tube", some [], "X"⟩]⟩⟩ "M" "RES" =
      .error "IndexError: list index out of range" ∧
    ∀ r : Option ℚ × String × String × String,
      get_part_price ⟨fun _ => none, fun _ => some ⟨[], some [⟨"Tube", some [], "X"⟩]⟩⟩ "M" "RES" ≠
        .ok r := by
  refine ⟨by decide, fun r hc => ?_⟩
  rw [(by decide :
    get_part_price ⟨fun _ => none, fun _ => some ⟨[], some [⟨"Tube", some [], "X"⟩]⟩⟩ "M" "RES" =
      .error "IndexError: list index out of range")] at hc
  exact Except.noConfusion hc

/-- **C3 (amended).**  Every resolver call that returns assigns exactly one
of the three labels: `"No Value to search"` exactly when the descriptor is
blank after trimming — in which case all fields are unresolved and the
result is independent of the catalog client, so no network call can have
influenced it; `"Found by Value keyword"` exactly when the keyword search
produced a selected candidate with at least one price breakpoint; and
`"Not found"` otherwise. -/
theorem C3_status_trichotomy (api : MouserClient) (pn v : String)
    (up : Option ℚ) (mp pk st : String)
    (h : get_part_price api pn v = .ok (up, mp, pk, st)) :
    (st = "No Value to search" ∨ st = "Found by Value keyword" ∨ st = "Not found") ∧
    (st = "No Value to search" ↔ pyStrip v = "") ∧
    (st = "Found by Value keyword" ↔ foundCase api v = true) ∧
    (st = "Not found" ↔ (¬ pyStrip v = "" ∧ foundCase api v = false)) ∧
    (pyStrip v = "" →
      up = none ∧ mp = "" ∧ pk = "" ∧
      ∀ (api2 : MouserClient) (pn2 : String), get_part_price api2 pn2 v = .ok (up, mp, pk, st)) := by
  obtain ⟨h1, h2, h3, h4, h5⟩ := get_part_price_ok_status h
  refine ⟨h5, h1, h2, h3, fun hv => ?_⟩
  have hb := get_part_price_blank api pn v hv
  rw [h] at hb
  obtain ⟨hup, hmp, hpk, hst⟩ : up = none ∧ mp = "" ∧ pk = "" ∧ st = "No Value to search" := by
    simpa using hb
  subst hup; subst hmp; subst hpk; subst hst
  exact ⟨rfl, rfl, rfl, fun api2 pn2 => get_part_price_blank api2 pn2 v hv⟩

/-- **C3 (witness).**  A concrete blank-descriptor call, run through the
theorem. -/
theorem C3_witness :
    ("No Value to search" = "No Value to search" ∨
      "No Value to search" = "Found by Value keyword" ∨
      "No Value to search" = "Not found") ∧
    ("No Value to search" = "No Value to search" ↔ pyStrip "  " = "") ∧
    ("No Value to search" = "Found by Value keyword" ↔
      foundCase ⟨fun _ => none, fun _ => none⟩ "  " = true) ∧
    ("No Value to search" = "Not found" ↔
      (¬ pyStrip "  " = "" ∧ foundCase ⟨fun _ => none, fun _ => none⟩ "  " = false)) ∧
    (pyStrip "  " = "" →
      (none : Option ℚ) = none ∧ "" = "" ∧ "" = "" ∧
      ∀ (api2 : MouserClient) (pn2 : String),
        get_part_price api2 pn2 "  " = .ok (none, "", "", "No Value to search")) :=
  C3_status_trichotomy ⟨fun _ => none, fun _ => none⟩ "M" "  " none "" "" "No Value to search"
    (by decide)

/-- **C4.**  A batch that completes has exactly one output row per input
row, in input order; every output row — including every row whose
resolution failed — keeps its original columns unchanged and carries all
five added fields, with the defined unresolved markers (`"N/A"`, `""`)
wherever no value was found. -/
theorem C4_output_shape (api : MouserClient) (rows : List Row) (out : List EnrichedRow)
    (h : process_bom api rows = .ok out) :
    out.length = rows.length ∧ List.Forall₂ enrichedShape rows out :=
  process_bom_shape h

/-- **C4 (witness).**  A concrete two-row batch (one blank descriptor, one
unmatched descriptor), run through the theorem. -/
theorem C4_witness :
    process_bom ⟨fun _ => none, fun _ => none⟩
        [⟨some "R1, R2", none, some "M1", some "  "⟩, ⟨some "R3", none, none, some "RES"⟩] =
      .ok [⟨⟨some "R1, R2", none, some "M1", some "  "⟩, "N/A", "N/A", "", "", "No Value to search"⟩,
           ⟨⟨some "R3", none, none, some "RES"⟩, "N/A", "N/A", "", "", "Not found"⟩] ∧
    ([⟨⟨some "R1, R2", none, some "M1", some "  "⟩, "N/A", "N/A", "", "", "No Value to search"⟩,
      ⟨⟨some "R3", none, none, some "RES"⟩, "N/A", "N/A", "", "", "Not found"⟩] :
        List EnrichedRow).length =
      ([⟨some "R1, R2", none, some "M1", some "  "⟩, ⟨some "R3", none, none, some "RES"⟩] :
        List Row).length ∧
    List.Forall₂ enrichedShape
      [⟨some "R1, R2", none, some "M1", some "  "⟩, ⟨some "R3", none, none, some "RES"⟩]
      [⟨⟨some "R1, R2", none, some "M1", some "  "⟩, "N/A", "N/A", "", "", "No Value to search"⟩,
       ⟨⟨some "R3", none, none, some "RES"⟩, "N/A", "N/A", "", "", "Not found"⟩] :=
  ⟨by decide,
   C4_output_shape ⟨fun _ => none, fun _ => none⟩
     [⟨some "R1, R2", none, some "M1", some "  "⟩, ⟨some "R3", none, none, some "RES"⟩]
     [⟨⟨some "R1, R2", none, some "M1", some "  "⟩, "N/A", "N/A", "", "", "No Value to search"⟩,
      ⟨⟨some "R3", none, none, some "RES"⟩, "N/A", "N/A", "", "", "Not found"⟩]
     (by decide)⟩

/-- **C5 (counterexample).**  A row whose quantity is inferred from two
reference designators and whose unit price resolves — to `0` (a price break
whose `Price` is `0`) — does not get currency strings: Python's truthiness
check `if unit_price` treats `0.0` as unresolved, so both price fields fall
back to `"N/A"` even though the claim requires `"$0.00"`. -/
theorem C5_counterexample :
    get_part_price ⟨fun _ => none, fun _ => some ⟨[], some [⟨"Cut Tape", some [⟨some 0⟩], "MP1"⟩]⟩⟩
        "M" "RES" = .ok (some 0, "MP1", "Cut Tape", "Found by Value keyword") ∧
    processRow ⟨fun _ => none, fun _ => some ⟨[], some [⟨"Cut Tape", some [⟨some 0⟩], "MP1"⟩]⟩⟩
        ⟨some "R1, R2", none, some "M", some "RES"⟩ =
      .ok ⟨⟨some "R1, R2", none, some "M", some "RES"⟩, "N/A", "N/A", "MP1", "Cut Tape",
           "Found by Value keyword"⟩ ∧
    "N/A" ≠ "$" ++ fmt2 0 := by
  refine ⟨by decide, by decide, by decide⟩

/-- **C5 (amended).**  For a row with no explicit quantity column, whose
reference-designator field holds `N ≥ 1` non-empty comma-separated tokens,
and whose unit price resolves to a positive value `p`, the unit price is
written as the two-fractional-digit currency string of `p` and the extended
price as that of `N × p`; zero resolved prices and zero quantities fall back
to the `"N/A"` marker instead (Python truthiness). -/
theorem C5_extended_price_formula (api : MouserClient) (row : Row) (N : ℕ) (p : ℚ)
    (mp pk st : String)
    (hq : row.Qty = none)
    (hN : refCount (row.Reference.getD "") = N)
    (hgp : get_part_price api (rowMpn row) (pyStrip (row.Value.getD "")) =
      .ok (some p, mp, pk, st))
    (hp : 0 < p) (hN1 : 1 ≤ N) :
    processRow api row =
      .ok ⟨row, "$" ++ fmt2 p, "$" ++ fmt2 (p * (N : ℚ)), mp, pk, st⟩ := by
  have hqty : rowQuantity row = .ok ((N : ℤ)) := by
    rw [rowQuantity_no_qty hq, hN]
  have hcast : (((N : ℤ) : ℚ)) = (N : ℚ) := by push_cast; ring
  have hp' : ¬ p = 0 := ne_of_gt hp
  have hNpos : (0 : ℚ) < ((N : ℤ) : ℚ) := by
    rw [hcast]
    exact_mod_cast Nat.pos_of_ne_zero (by omega)
  have hpN : ¬ p * ((N : ℤ) : ℚ) = 0 := ne_of_gt (mul_pos hp hNpos)
  have hrun := processRow_found hqty hgp hp' hpN
  rw [hrun, hcast]

/-- **C5 (witness).**  Three reference designators, unit price 5: extended
price is the formatted value of `5 × 3`. -/
theorem C5_witness :
    processRow ⟨fun _ => none, fun _ => some ⟨[], some [⟨"Cut Tape", some [⟨some 5⟩], "MP1"⟩]⟩⟩
        ⟨some "R1, R2, R3", none, some "M", some "RES"⟩ =
      .ok ⟨⟨some "R1, R2, R3", none, some "M", some "RES"⟩,
           "$" ++ fmt2 5, "$" ++ fmt2 ((5 : ℚ) * ((3 : ℕ) : ℚ)), "MP1", "Cut Tape",
           "Found by Value keyword"⟩ :=
  C5_extended_price_formula
    ⟨fun _ => none, fun _ => some ⟨[], some [⟨"Cut Tape", some [⟨some 5⟩], "MP1"⟩]⟩⟩
    ⟨some "R1, R2, R3", none, some "M", some "RES"⟩ 3 5 "MP1" "Cut Tape"
    "Found by Value keyword" rfl (by decide) (by decide) (by decide) (by decide)

/-- **C7.**  Both catalog-client operations return `None` exactly on a
blank query, a transport failure, a non-2xx response, a malformed payload,
or a non-empty application-level error list — an exception never reaches
the caller (the operations are total functions into `Option`); and the
keyword request always carries `records = 50`. -/
theorem C7_client_contract (tk : KeywordRequest → HttpOutcome)
    (tp : PartNumberRequest → HttpOutcome) (k pn : String) :
    (keywordRequest k).records = 50 ∧
    (search_by_keyword tk k = none ↔
      (pyStrip k = "" ∨
        match tk (keywordRequest k) with
        | .ok body => ¬ body.Errors = []
        | _ => True)) ∧
    (search_by_part_number tp pn = none ↔
      (pyStrip pn = "" ∨
        match tp (partNumberRequest pn) with
        | .ok body => ¬ body.Errors = []
        | _ => True)) := by
  refine ⟨rfl, ?_, ?_⟩
  · by_cases hk : pyStrip k = ""
    · simp [search_by_keyword, hk]
    · cases ho : tk (keywordRequest k) with
      | transportError m => simp [search_by_keyword, hk, ho]
      | httpError c => simp [search_by_keyword, hk, ho]
      | malformedBody => simp [search_by_keyword, hk, ho]
      | ok body =>
        by_cases he : body.Errors = [] <;> simp [search_by_keyword, hk, ho, he]
  · by_cases hp : pyStrip pn = ""
    · simp [search_by_part_number, hp]
    · cases ho : tp (partNumberRequest pn) with
      | transportError m => simp [search_by_part_number, hp, ho]
      | httpError c => simp [search_by_part_number, hp, ho]
      | malformedBody => simp [search_by_part_number, hp, ho]
      | ok body =>
        by_cases he : body.Errors = [] <;> simp [search_by_part_number, hp, ho, he]

/-- **C8 (counterexample).**  A row with neither an explicit quantity nor
reference designators silently falls to quantity `0`; its status is the
plain resolver label `"Not found"` — identical to the status of the same
row with an explicit quantity of `5` — so the condition is *not* recorded
in the row's status. -/
theorem C8_counterexample :
    rowQuantity ⟨none, none, some "M", some "RES"⟩ = .ok 0 ∧
    processRow ⟨fun _ => none, fun _ => none⟩ ⟨none, none, some "M", some "RES"⟩ =
      .ok ⟨⟨none, none, some "M", some "RES"⟩, "N/A", "N/A", "", "", "Not found"⟩ ∧
    processRow ⟨fun _ => none, fun _ => none⟩ ⟨none, some "5", some "M", some "RES"⟩ =
      .ok ⟨⟨none, some "5", some "M", some "RES"⟩, "N/A", "N/A", "", "", "Not found"⟩ := by
  refine ⟨by decide, by decide, by decide⟩

/-- **C8 (amended).**  Quantity comes from the explicit `Qty` field when
present and non-blank, otherwise from the count of non-empty
comma-separated reference-designator tokens; with neither source it falls
to `0` silently — the status of a processed row is exactly the resolver's
status on the row's identifier and descriptor, so quantity inference can
never be recorded in it. -/
theorem C8_quantity_selection :
    (∀ (row : Row) (q : String), row.Qty = some q → ¬ pyStrip q = "" →
      rowQuantity row = pyInt q) ∧
    (∀ row : Row, row.Qty = none →
      rowQuantity row = .ok (refCount (row.Reference.getD ""))) ∧
    (∀ (row : Row) (q : String), row.Qty = some q → pyStrip q = "" →
      rowQuantity row = .ok (refCount (row.Reference.getD ""))) ∧
    (∀ row : Row, row.Qty = none → row.Reference = none → rowQuantity row = .ok 0) ∧
    (∀ (api : MouserClient) (row : Row) (er : EnrichedRow), processRow api row = .ok er →
      ∃ up mp pk,
        get_part_price api (rowMpn row) (pyStrip (row.Value.getD "")) =
          .ok (up, mp, pk, er.Status)) := by
  refine ⟨fun row q hq hne => rowQuantity_explicit hq hne,
          fun row hq => rowQuantity_no_qty hq,
          fun row q hq hb => rowQuantity_blank_qty hq hb,
          fun row hq hr => ?_,
          fun api row er h => processRow_status h⟩
  rw [rowQuantity_no_qty hq, hr]
  decide

/-- **C8 (witness).**  Concrete rows run through each clause of the
theorem. -/
theorem C8_witness :
    rowQuantity ⟨some "R1, R2", some "7", some "M", some "V"⟩ = pyInt "7" ∧
    rowQuantity ⟨some "R1, R2", none, some "M", some "V"⟩ =
      .ok (refCount ((⟨some "R1, R2", none, some "M", some "V"⟩ : Row).Reference.getD "")) ∧
    rowQuantity ⟨none, none, some "M", some "V"⟩ = .ok 0 ∧
    (∃ up mp pk,
      get_part_price ⟨fun _ => none, fun _ => none⟩
          (rowMpn ⟨none, none, some "M", some "RES2"⟩)
          (pyStrip ((⟨none, none, some "M", some "RES2"⟩ : Row).Value.getD "")) =
        .ok (up, mp, pk,
          (⟨⟨none, none, some "M", some "RES2"⟩, "N/A", "N/A", "", "", "Not found"⟩ :
            EnrichedRow).Status)) :=
  ⟨C8_quantity_selection.1 _ "7" rfl (by decide),
   C8_quantity_selection.2.1 _ rfl,
   C8_quantity_selection.2.2.2.1 _ rfl rfl,
   C8_quantity_selection.2.2.2.2 ⟨fun _ => none, fun _ => none⟩ _ _ (by decide)⟩

/-- **C9.**  The descriptor normalizer is a pure total function: a
descriptor starting with the recognized generic-connector marker `"Conn_"`
becomes the canonical substitute search phrase, and every other descriptor
passes through unchanged. -/
theorem C9_normalizer_identity (v : String) :
    (pyStartsWith v "Conn_" = true → normalize_value v = "2.54mm pitch male header") ∧
    (pyStartsWith v "Conn_" = false → normalize_value v = v) := by
  constructor <;> intro h <;> simp [normalize_value, h]

/-- **C9 (witness).**  One recognized connector descriptor, one unmatched
descriptor. -/
theorem C9_witness :
    normalize_value "Conn_01x06_Pin" = "2.54mm pitch male header" ∧
    normalize_value "10k 0603 resistor" = "10k 0603 resistor" :=
  ⟨(C9_normalizer_identity "Conn_01x06_Pin").1 (by decide),
   (C9_normalizer_identity "10k 0603 resistor").2 (by decide)⟩

/-- **C6 (code bug, evaluated).**  The true parts of the claim hold on
concrete runs: the selector returns `None` on the empty sequence; a sole
hit whose `PriceBreaks` *key is absent* is keyed `+∞` and still returned;
and such a hit ranks last against any priced hit.  But the selector is not
total: a hit whose `PriceBreaks` key is present with an *empty list* — a
hit with no price breakpoints, exactly the case the claim says is keyed
`+∞` — makes line 121 raise `IndexError` instead of returning it. -/
theorem C6_selector_totality_violated :
    filter_results [] = .ok none ∧
    filter_results [⟨"Tube", none, "D"⟩] = .ok (some ⟨"Tube", none, "D"⟩) ∧
    filter_results [⟨"Tube", none, "D"⟩, ⟨"Tube", some [⟨some 9⟩], "E"⟩] =
      .ok (some ⟨"Tube", some [⟨some 9⟩], "E"⟩) ∧
    filter_results [⟨"Tube", some [], "X"⟩] = .error "IndexError: list index out of range" := by
  refine ⟨by decide, by decide, by decide, by decide⟩

/-- **C10.**  The resolver's output depends only on the descriptor and the
keyword-search operation — never on the identifier argument or on the
exact-match (part-number) operation: two calls agreeing on descriptor and
keyword search coincide for every pair of identifiers and every pair of
part-number search implementations. -/
theorem C10_identifier_never_used (kw pns1 pns2 : String → Option CatalogResult)
    (pn1 pn2 v : String) :
    get_part_price ⟨pns1, kw⟩ pn1 v = get_part_price ⟨pns2, kw⟩ pn2 v := rfl

end BomPricer
